import Mathlib

/-!
Shallow embedding of the SetFlow flow-analysis engine:
`areKeysClashing` (src/lib/types.ts), `calculateFlowWarnings` and
`calculateTimeStatus` (src/lib/store.ts), together with proofs of the
specified properties.

Numbers in the source are TypeScript numbers used at integer values; they
are modelled as `Int` (indices as `Nat`).
-/

/-- The 12 musical keys, `MUSICAL_KEYS` in src/lib/types.ts
(`C, C#, D, D#, E, F, F#, G, G#, A, A#, B`). -/
inductive MusicalKey where
  | C | Cs | D | Ds | E | F | Fs | G | Gs | A | As | B
deriving DecidableEq, Repr, Fintype

/-- `KEY_MODES = ['Major', 'Minor']` from src/lib/types.ts. -/
inductive KeyMode where
  | Major | Minor
deriving DecidableEq, Repr, Fintype

def MusicalKey.name : MusicalKey → String
  | .C => "C" | .Cs => "C#" | .D => "D" | .Ds => "D#" | .E => "E" | .F => "F"
  | .Fs => "F#" | .G => "G" | .Gs => "G#" | .A => "A" | .As => "A#" | .B => "B"

def KeyMode.name : KeyMode → String
  | .Major => "Major"
  | .Minor => "Minor"

/-- The `Song` record from src/lib/types.ts. -/
structure Song where
  id : String
  title : String
  shortName : String
  durationSeconds : Int
  bpm : Int
  musicalKey : MusicalKey
  keyMode : KeyMode
  energyLevel : Int
  notes : String
  lightsNotes : String
  createdAt : Int
  updatedAt : Int
deriving DecidableEq, Repr

/-- `FlowWarningType` from src/lib/types.ts:
`'key-clash' | 'energy-drop' | 'slow-sequence'`. -/
inductive FlowWarningType where
  | keyClash | energyDrop | slowSequence
deriving DecidableEq, Repr

/-- The `FlowWarning` record from src/lib/types.ts. -/
structure FlowWarning where
  type : FlowWarningType
  songIndex : Nat
  message : String
deriving DecidableEq, Repr

/-- `TimeStatus` from src/lib/types.ts: `'under' | 'good' | 'close' | 'over'`. -/
inductive TimeStatus where
  | under | good | close | over
deriving DecidableEq, Repr

/-- `KEY_POSITIONS` from src/lib/types.ts: position of each key on the
circle of fifths. -/
def KEY_POSITIONS : MusicalKey → Int
  | .C => 0 | .G => 1 | .D => 2 | .A => 3 | .E => 4 | .B => 5
  | .Fs => 6 | .Cs => 7 | .Gs => 8 | .Ds => 9 | .As => 10 | .F => 11

/-- `areKeysClashing` from src/lib/types.ts. -/
def areKeysClashing (key1 : MusicalKey) (mode1 : KeyMode)
    (key2 : MusicalKey) (mode2 : KeyMode) : Bool :=
  -- If same key and mode, no clash
  if key1 = key2 ∧ mode1 = mode2 then false
  else
    -- Get positions on circle of fifths
    let pos1 := KEY_POSITIONS key1
    let pos2 := KEY_POSITIONS key2
    -- Calculate distance on circle of fifths (both directions)
    let distance := min |pos1 - pos2| (12 - |pos1 - pos2|)
    -- Keys more than 4 steps apart are considered clashing
    decide (distance > 4)

/-- The message pushed for a key clash in `calculateFlowWarnings`. -/
def keyClashMessage (prevSong currentSong : Song) : String :=
  "Key clash: " ++ prevSong.musicalKey.name ++ " " ++ prevSong.keyMode.name
    ++ " → " ++ currentSong.musicalKey.name ++ " " ++ currentSong.keyMode.name

/-- The message pushed for an energy drop in `calculateFlowWarnings`. -/
def energyDropMessage (prevSong currentSong : Song) : String :=
  "Energy drop: " ++ toString prevSong.energyLevel ++ " → "
    ++ toString currentSong.energyLevel

/-- The message pushed for a slow sequence in `calculateFlowWarnings`. -/
def slowSequenceMessage : String := "3+ consecutive slow songs (BPM < 90)"

/-- The resolution step of `calculateFlowWarnings`
(`songIds.map(id => songs.find(s => s.id === id)).filter(defined)`):
each id is looked up in the catalog and unresolved ids are dropped. -/
def resolveSetlist (songIds : List String) (songs : List Song) : List Song :=
  songIds.filterMap (fun id => songs.find? (fun s => s.id == id))

/-- First loop of `calculateFlowWarnings` (store.ts lines 150-177): walks
adjacent pairs `(setlistSongs[i-1], setlistSongs[i])` starting at `i = 1`,
pushing a key-clash warning and then an energy-drop warning onto the
accumulated `warnings` array. -/
def pairLoop (warnings : List FlowWarning) : List Song → Nat → List FlowWarning
  | prevSong :: currentSong :: rest, i =>
    let warnings1 :=
      if areKeysClashing prevSong.musicalKey prevSong.keyMode
          currentSong.musicalKey currentSong.keyMode then
        warnings ++ [⟨.keyClash, i, keyClashMessage prevSong currentSong⟩]
      else warnings
    let energyDrop := prevSong.energyLevel - currentSong.energyLevel
    let warnings2 :=
      if energyDrop > 2 then
        warnings1 ++ [⟨.energyDrop, i, energyDropMessage prevSong currentSong⟩]
      else warnings1
    pairLoop warnings2 (currentSong :: rest) (i + 1)
  | _, _ => warnings

mutual
/-- Second loop of `calculateFlowWarnings` (store.ts lines 180-198): scans
for 3 or more consecutive slow songs (bpm < 90), carrying the running
count `slowCount`; on reaching a count of 3 it pushes one warning and the
inner `while` loop skips past the rest of the unbroken slow run
(modelled by `slowSkip`). -/
def slowLoop (warnings : List FlowWarning) :
    List Song → Nat → Nat → List FlowWarning
  | [], _, _ => warnings
  | s :: rest, i, slowCount =>
    if s.bpm < 90 then
      if slowCount + 1 ≥ 3 then
        slowSkip (warnings ++ [⟨.slowSequence, i, slowSequenceMessage⟩])
          rest (i + 1)
      else
        slowLoop warnings rest (i + 1) (slowCount + 1)
    else
      slowLoop warnings rest (i + 1) 0

/-- The inner `while (i + 1 < n && songs[i + 1].bpm < 90) i++` of the slow
scan: advances past the remainder of the current slow run; the first
non-slow song is then processed by the outer loop's `else` branch, which
resets `slowCount` to 0. -/
def slowSkip (warnings : List FlowWarning) :
    List Song → Nat → List FlowWarning
  | [], _ => warnings
  | s :: rest, i =>
    if s.bpm < 90 then slowSkip warnings rest (i + 1)
    else slowLoop warnings rest (i + 1) 0
end

/-- `calculateFlowWarnings` from src/lib/store.ts: resolves the id list
against the catalog, then runs the adjacent-pair loop followed by the
slow-sequence scan, both pushing onto the same `warnings` array. -/
def calculateFlowWarnings (songIds : List String) (songs : List Song) :
    List FlowWarning :=
  let setlistSongs := resolveSetlist songIds songs
  slowLoop (pairLoop [] setlistSongs 1) setlistSongs 0 0

/-- Result record of `calculateTimeStatus`. -/
structure TimeStatusResult where
  status : TimeStatus
  targetSeconds : Int
  difference : Int
deriving DecidableEq, Repr

/-- `calculateTimeStatus` from src/lib/store.ts. -/
def calculateTimeStatus (totalSeconds targetMinutes changeoverMinutes : Int) :
    TimeStatusResult :=
  let targetSeconds := (targetMinutes - changeoverMinutes) * 60
  let difference := totalSeconds - targetSeconds
  let toleranceSeconds : Int := 120 -- 2 minutes tolerance
  let status : TimeStatus :=
    if difference > toleranceSeconds then .over
    else if difference > 0 then .close
    else if difference ≥ -toleranceSeconds then .good
    else .under
  ⟨status, targetSeconds, difference⟩

/-! ## Specification-side reformulations

`pairWarningList` and `slowWarningList` describe the two passes of
`calculateFlowWarnings` without the threaded accumulator (and, for the
slow scan, with the inner skip loop replaced by a run counter that keeps
counting past 3); they are proven equal to the accumulator loops below. -/

/-- The warnings produced by the adjacent-pair pass, pair by pair. -/
def pairWarningList : List Song → Nat → List FlowWarning
  | prevSong :: currentSong :: rest, i =>
    (if areKeysClashing prevSong.musicalKey prevSong.keyMode
        currentSong.musicalKey currentSong.keyMode then
      [⟨.keyClash, i, keyClashMessage prevSong currentSong⟩]
    else [])
    ++ (if prevSong.energyLevel - currentSong.energyLevel > 2 then
      [⟨.energyDrop, i, energyDropMessage prevSong currentSong⟩]
    else [])
    ++ pairWarningList (currentSong :: rest) (i + 1)
  | _, _ => []

/-- The warnings produced by the slow-sequence pass: the run counter keeps
incrementing instead of skipping, and a warning is emitted exactly when the
counter reaches 3. -/
def slowWarningList : List Song → Nat → Nat → List FlowWarning
  | [], _, _ => []
  | s :: rest, i, slowCount =>
    if s.bpm < 90 then
      if slowCount + 1 = 3 then
        ⟨.slowSequence, i, slowSequenceMessage⟩
          :: slowWarningList rest (i + 1) (slowCount + 1)
      else slowWarningList rest (i + 1) (slowCount + 1)
    else slowWarningList rest (i + 1) 0

/-- Whether the song at index `j` of `l` exists and is slow (bpm < 90). -/
def slowAt (l : List Song) (j : Nat) : Bool :=
  match l[j]? with
  | some s => s.bpm < 90
  | none => false

/-- Index `j` is the third song of a maximal run of 3-or-more consecutive
slow songs: `j`, `j-1`, `j-2` are slow and the run does not extend to
`j-3` (either `j = 2`, or the song at `j-3` is not slow). -/
def thirdOfSlowRun (l : List Song) (j : Nat) : Prop :=
  2 ≤ j ∧ slowAt l j = true ∧ slowAt l (j - 1) = true ∧ slowAt l (j - 2) = true
    ∧ ¬(3 ≤ j ∧ slowAt l (j - 3) = true)

instance (l : List Song) (j : Nat) : Decidable (thirdOfSlowRun l j) := by
  unfold thirdOfSlowRun; infer_instance

/-- Intended order of the pairwise pass: ascending song index, with the
key-clash warning before the energy-drop warning at the same pair. -/
def warnBefore (a b : FlowWarning) : Prop :=
  a.songIndex < b.songIndex
    ∨ (a.songIndex = b.songIndex
        ∧ a.type = .keyClash ∧ b.type = .energyDrop)

/-! ## Equivalence of the accumulator loops with the list versions -/

theorem pairLoop_eq_append (l : List Song) :
    ∀ (warnings : List FlowWarning) (i : Nat),
    pairLoop warnings l i = warnings ++ pairWarningList l i := by
  induction l with
  | nil => intro w i; simp [pairLoop, pairWarningList]
  | cons x rest ih =>
    cases rest with
    | nil => intro w i; simp [pairLoop, pairWarningList]
    | cons y rest' =>
      intro w i
      rw [pairLoop, pairWarningList, ih]
      by_cases hkc : areKeysClashing x.musicalKey x.keyMode y.musicalKey y.keyMode
        <;> by_cases hed : x.energyLevel - y.energyLevel > 2
        <;> simp [hkc, hed]

theorem slow_loops_eq (n : Nat) : ∀ (l : List Song), l.length ≤ n →
    (∀ (warnings : List FlowWarning) (i c : Nat), c ≤ 2 →
      slowLoop warnings l i c = warnings ++ slowWarningList l i c)
    ∧ (∀ (warnings : List FlowWarning) (i c : Nat), 3 ≤ c →
      slowSkip warnings l i = warnings ++ slowWarningList l i c) := by
  induction n with
  | zero =>
    intro l hl
    have : l = [] := List.length_eq_zero.mp (by omega)
    subst this
    constructor
    · intro w i c _; simp [slowLoop, slowWarningList]
    · intro w i c _; simp [slowSkip, slowWarningList]
  | succ n ih =>
    intro l hl
    cases l with
    | nil =>
      constructor
      · intro w i c _; simp [slowLoop, slowWarningList]
      · intro w i c _; simp [slowSkip, slowWarningList]
    | cons x rest =>
      have hrest : rest.length ≤ n := by
        simp only [List.length_cons] at hl; omega
      constructor
      · intro w i c hc
        by_cases hx : x.bpm < 90
        · by_cases h3 : c + 1 ≥ 3
          · have he : c + 1 = 3 := by omega
            have hskip := (ih rest hrest).2
              (w ++ [⟨.slowSequence, i, slowSequenceMessage⟩])
              (i + 1) 3 (by omega)
            rw [slowLoop, if_pos hx, if_pos h3, slowWarningList, if_pos hx,
              if_pos he, he, hskip]
            simp
          · have hne : ¬(c + 1 = 3) := by omega
            rw [slowLoop, if_pos hx, if_neg h3, slowWarningList, if_pos hx,
              if_neg hne]
            exact (ih rest hrest).1 w (i + 1) (c + 1) (by omega)
        · rw [slowLoop, if_neg hx, slowWarningList, if_neg hx]
          exact (ih rest hrest).1 w (i + 1) 0 (by omega)
      · intro w i c hc
        by_cases hx : x.bpm < 90
        · have hne : ¬(c + 1 = 3) := by omega
          rw [slowSkip, if_pos hx, slowWarningList, if_pos hx, if_neg hne]
          exact (ih rest hrest).2 w (i + 1) (c + 1) (by omega)
        · rw [slowSkip, if_neg hx, slowWarningList, if_neg hx]
          exact (ih rest hrest).1 w (i + 1) 0 (by omega)

/-! ## Shape of the warnings emitted by each pass -/

theorem pairWarningList_mem_type (l : List Song) :
    ∀ (b : Nat) (w : FlowWarning), w ∈ pairWarningList l b →
      w.type = .keyClash ∨ w.type = .energyDrop := by
  induction l with
  | nil => intro b w hw; simp [pairWarningList] at hw
  | cons x rest ih =>
    cases rest with
    | nil => intro b w hw; simp [pairWarningList] at hw
    | cons y rest' =>
      intro b w hw
      rw [pairWarningList] at hw
      rcases List.mem_append.mp hw with h12 | h3
      · rcases List.mem_append.mp h12 with h1 | h2
        · split at h1 <;> simp at h1
          subst h1; left; rfl
        · split at h2 <;> simp at h2
          subst h2; right; rfl
      · exact ih (b + 1) w h3

theorem pairWarningList_mem_bounds (l : List Song) :
    ∀ (b : Nat) (w : FlowWarning), w ∈ pairWarningList l b →
      b ≤ w.songIndex ∧ w.songIndex + 2 ≤ b + l.length := by
  induction l with
  | nil => intro b w hw; simp [pairWarningList] at hw
  | cons x rest ih =>
    cases rest with
    | nil => intro b w hw; simp [pairWarningList] at hw
    | cons y rest' =>
      intro b w hw
      rw [pairWarningList] at hw
      simp only [List.length_cons]
      rcases List.mem_append.mp hw with h12 | h3
      · rcases List.mem_append.mp h12 with h1 | h2
        · split at h1 <;> simp at h1
          subst h1; simp
        · split at h2 <;> simp at h2
          subst h2; simp
      · have := ih (b + 1) w h3
        simp only [List.length_cons] at this
        omega

theorem slowWarningList_mem_shape (l : List Song) :
    ∀ (i c : Nat) (w : FlowWarning), w ∈ slowWarningList l i c →
      w.type = .slowSequence ∧ w.message = slowSequenceMessage
        ∧ i ≤ w.songIndex ∧ w.songIndex < i + l.length
        ∧ i + 2 ≤ c + w.songIndex := by
  induction l with
  | nil => intro i c w hw; simp [slowWarningList] at hw
  | cons x rest ih =>
    intro i c w hw
    rw [slowWarningList] at hw
    simp only [List.length_cons]
    split at hw
    · split at hw
      · rcases List.mem_cons.mp hw with h | h
        · subst h; simp; omega
        · have := ih (i + 1) (c + 1) w h
          refine ⟨this.1, this.2.1, ?_, ?_, ?_⟩ <;> omega
      · have := ih (i + 1) (c + 1) w hw
        refine ⟨this.1, this.2.1, ?_, ?_, ?_⟩ <;> omega
    · have := ih (i + 1) 0 w hw
      refine ⟨this.1, this.2.1, ?_, ?_, ?_⟩ <;> omega

/-- The pairwise pass emits warnings in ascending position order, the
key-clash warning before the energy-drop warning at the same pair. -/
theorem pairWarningList_pairwise (l : List Song) :
    ∀ (b : Nat), List.Pairwise warnBefore (pairWarningList l b) := by
  induction l with
  | nil => intro b; simp [pairWarningList]
  | cons x rest ih =>
    cases rest with
    | nil => intro b; simp [pairWarningList]
    | cons y rest' =>
      intro b
      rw [pairWarningList]
      apply List.pairwise_append.mpr
      refine ⟨List.pairwise_append.mpr ⟨?_, ?_, ?_⟩, ih (b + 1), ?_⟩
      · split <;> simp
      · split <;> simp
      · intro a ha w hw
        split at ha <;> simp at ha
        split at hw <;> simp at hw
        subst ha; subst hw
        exact Or.inr ⟨rfl, rfl, rfl⟩
      · intro a ha w hw
        have hb := pairWarningList_mem_bounds _ (b + 1) w hw
        rcases List.mem_append.mp ha with h1 | h2
        · split at h1 <;> simp at h1
          subst h1
          exact Or.inl (show b < w.songIndex by omega)
        · split at h2 <;> simp at h2
          subst h2
          exact Or.inl (show b < w.songIndex by omega)

theorem slowAt_of_lt {L : List Song} {p : Nat} (hp : p < L.length) :
    slowAt L p = decide ((L.get ⟨p, hp⟩).bpm < 90) := by
  unfold slowAt
  rw [List.getElem?_eq_getElem hp]
  rfl

/-- Central characterization of the slow-sequence pass: scanning the suffix
`L.drop p` with run counter `c`, where `c` consistently describes the slow
run of `L` ending just before index `p`, produces exactly the positions of
`thirdOfSlowRun` in the suffix. -/
theorem slowWarningList_positions (L : List Song) :
    ∀ (n p c : Nat), L.length ≤ p + n → c ≤ p →
    (∀ d, d < c → slowAt L (p - 1 - d) = true) →
    (c < p → slowAt L (p - 1 - c) = false) →
    (slowWarningList (L.drop p) p c).map (fun w => w.songIndex)
      = (List.range' p (L.length - p)).filter
          (fun j => decide (thirdOfSlowRun L j)) := by
  intro n
  induction n with
  | zero =>
    intro p c hlen _ _ _
    rw [List.drop_eq_nil_of_le (by omega), show L.length - p = 0 by omega]
    simp [slowWarningList]
  | succ n ih =>
    intro p c hlen hc hrun hstop
    by_cases hp : L.length ≤ p
    · rw [List.drop_eq_nil_of_le hp, show L.length - p = 0 by omega]
      simp [slowWarningList]
    · push_neg at hp
      have hdrop : L.drop p = L[p] :: L.drop (p + 1) :=
        List.drop_eq_getElem_cons hp
      rw [hdrop, show L.length - p = (L.length - (p + 1)) + 1 by omega,
        List.range'_succ, slowWarningList]
      have hslowp : slowAt L p = decide (L[p].bpm < 90) := slowAt_of_lt hp
      by_cases hx : L[p].bpm < 90
      · have hsp : slowAt L p = true := by rw [hslowp]; exact decide_eq_true hx
        rw [if_pos hx]
        by_cases he : c + 1 = 3
        · -- the run reaches length 3 exactly at p: emit and keep counting
          have hc2 : c = 2 := by omega
          have hthird : thirdOfSlowRun L p := by
            refine ⟨by omega, hsp, ?_, ?_, ?_⟩
            · exact hrun 0 (by omega)
            · have := hrun 1 (by omega)
              rwa [show p - 1 - 1 = p - 2 by omega] at this
            · rintro ⟨hp3, habs⟩
              have := hstop (by omega)
              rw [show p - 1 - c = p - 3 by omega] at this
              rw [habs] at this
              exact Bool.true_eq_false.mp this
          rw [if_pos he, List.filter_cons, if_pos (by
            simpa using decide_eq_true hthird)]
          simp only [List.map_cons]
          congr 1
          apply ih (p + 1) (c + 1) (by omega) (by omega)
          · intro d hd
            match d with
            | 0 => simpa [show p + 1 - 1 - 0 = p by omega] using hsp
            | d' + 1 =>
              rw [show p + 1 - 1 - (d' + 1) = p - 1 - d' by omega]
              exact hrun d' (by omega)
          · intro hlt
            rw [show p + 1 - 1 - (c + 1) = p - 1 - c by omega]
            exact hstop (by omega)
        · -- run does not reach exactly 3 at p: no warning here
          have hthird : ¬thirdOfSlowRun L p := by
            rcases Nat.lt_or_ge c 2 with hlt | hge
            · -- run too short: the song at p - 1 - c is not slow
              rintro ⟨hp2, _, hm1, hm2, _⟩
              have hne := hstop (by omega)
              match c, hlt with
              | 0, _ => rw [show p - 1 - 0 = p - 1 by omega] at hne
                        rw [hm1] at hne; exact Bool.true_eq_false.mp hne
              | 1, _ => rw [show p - 1 - 1 = p - 2 by omega] at hne
                        rw [hm2] at hne; exact Bool.true_eq_false.mp hne
            · -- run already longer than 3: position p - 3 is still slow
              have hc3 : 3 ≤ c := by omega
              rintro ⟨_, _, _, _, habs⟩
              refine habs ⟨by omega, ?_⟩
              have := hrun 2 (by omega)
              rwa [show p - 1 - 2 = p - 3 by omega] at this
          rw [if_neg he, List.filter_cons, if_neg (by
            simpa using decide_eq_false hthird)]
          apply ih (p + 1) (c + 1) (by omega) (by omega)
          · intro d hd
            match d with
            | 0 => simpa [show p + 1 - 1 - 0 = p by omega] using hsp
            | d' + 1 =>
              rw [show p + 1 - 1 - (d' + 1) = p - 1 - d' by omega]
              exact hrun d' (by omega)
          · intro hlt
            rw [show p + 1 - 1 - (c + 1) = p - 1 - c by omega]
            exact hstop (by omega)
      · have hsp : slowAt L p = false := by
          rw [hslowp]; exact decide_eq_false hx
        have hthird : ¬thirdOfSlowRun L p := by
          rintro ⟨_, habs, _, _, _⟩
          rw [habs] at hsp
          exact Bool.true_eq_false.mp hsp
        rw [if_neg hx, List.filter_cons, if_neg (by
          simpa using decide_eq_false hthird)]
        apply ih (p + 1) 0 (by omega) (by omega)
        · intro d hd; omega
        · intro _
          simpa [show p + 1 - 1 - 0 = p by omega] using hsp

/-- Membership characterization of energy-drop warnings in the pairwise
pass: a warning of type energy-drop at position `j` exists iff the songs at
offsets `j - b` and `j - b + 1` exist and lose more than 2 energy levels. -/
theorem pairWarningList_energyDrop_iff (l : List Song) :
    ∀ (b j : Nat),
    (∃ w ∈ pairWarningList l b, w.type = .energyDrop ∧ w.songIndex = j)
      ↔ ∃ s1 s2, b ≤ j ∧ l[j - b]? = some s1 ∧ l[j - b + 1]? = some s2
          ∧ s1.energyLevel - s2.energyLevel > 2 := by
  induction l with
  | nil => intro b j; simp [pairWarningList]
  | cons x rest ih =>
    cases rest with
    | nil => intro b j; simp [pairWarningList]
    | cons y rest' =>
      intro b j
      rw [pairWarningList]
      constructor
      · rintro ⟨w, hw, ht, hidx⟩
        rcases List.mem_append.mp hw with h12 | h3
        · rcases List.mem_append.mp h12 with h1 | h2
          · split at h1 <;> simp at h1
            subst h1
            simp at ht
          · split at h2 <;> simp at h2
            next hcond =>
              subst h2
              simp at hidx
              refine ⟨x, y, by omega, ?_, ?_, hcond⟩
              · rw [show j - b = 0 by omega, List.getElem?_cons_zero]
              · rw [show j - b + 1 = 1 by omega, List.getElem?_cons_succ,
                  List.getElem?_cons_zero]
        · rcases (ih (b + 1) j).mp ⟨w, h3, ht, hidx⟩
            with ⟨s1, s2, hbj, hg1, hg2, hcond⟩
          refine ⟨s1, s2, by omega, ?_, ?_, hcond⟩
          · rw [show j - b = (j - (b + 1)) + 1 by omega,
              List.getElem?_cons_succ]
            exact hg1
          · rw [show j - b + 1 = (j - (b + 1) + 1) + 1 by omega,
              List.getElem?_cons_succ]
            exact hg2
      · rintro ⟨s1, s2, hbj, hg1, hg2, hcond⟩
        by_cases hjb : j = b
        · subst hjb
          rw [show j - j = 0 by omega, List.getElem?_cons_zero] at hg1
          rw [show j - j + 1 = 1 by omega, List.getElem?_cons_succ,
            List.getElem?_cons_zero] at hg2
          injection hg1 with hg1
          injection hg2 with hg2
          subst hg1; subst hg2
          refine ⟨⟨.energyDrop, j, energyDropMessage x y⟩, ?_, rfl, rfl⟩
          apply List.mem_append_left
          apply List.mem_append_right
          rw [if_pos hcond]
          exact List.mem_singleton_self _
        · have hbj' : b + 1 ≤ j := by omega
          rw [show j - b = (j - (b + 1)) + 1 by omega,
            List.getElem?_cons_succ] at hg1
          rw [show j - b + 1 = (j - (b + 1) + 1) + 1 by omega,
            List.getElem?_cons_succ] at hg2
          rcases (ih (b + 1) j).mpr ⟨s1, s2, hbj', hg1, hg2, hcond⟩
            with ⟨w, hw, ht, hidx⟩
          exact ⟨w, List.mem_append_right _ hw, ht, hidx⟩

/-- Ids whose catalog lookup fails contribute nothing: filtering them out
of the id list first does not change the resolved list. -/
theorem filterMap_filter_isSome {α β : Type} (f : α → Option β) (l : List α) :
    (l.filter (fun a => (f a).isSome)).filterMap f = l.filterMap f := by
  induction l with
  | nil => rfl
  | cons x rest ih =>
    cases hfx : f x with
    | none =>
      rw [List.filter_cons, if_neg (by simp [hfx]),
        List.filterMap_cons_none hfx, ih]
    | some b =>
      rw [List.filter_cons, if_pos (by simp [hfx]),
        List.filterMap_cons_some hfx, List.filterMap_cons_some hfx, ih]

/-- `calculateFlowWarnings` is the pairwise pass followed by the
slow-sequence pass on the resolved setlist. -/
theorem calculateFlowWarnings_decomp (songIds : List String) (songs : List Song) :
    calculateFlowWarnings songIds songs
      = pairWarningList (resolveSetlist songIds songs) 1
        ++ slowWarningList (resolveSetlist songIds songs) 0 0 := by
  rw [calculateFlowWarnings]
  rw [(slow_loops_eq (resolveSetlist songIds songs).length
    (resolveSetlist songIds songs) le_rfl).1 _ 0 0 (by omega)]
  rw [pairLoop_eq_append]
  simp

/-! ## Concrete songs used by the examples in the specification -/

/-- A song with the given id, bpm and energy level, in C Major; the other
fields are inert for the flow analysis. -/
def sampleSong (id : String) (bpm energyLevel : Int) : Song :=
  ⟨id, id, id, 180, bpm, .C, .Major, energyLevel, "", "", 0, 0⟩

/-- Catalog `{A, B, C}`: all fast, all C Major, energies 5, 5, 2 (so the
only flow problem is the B → C energy drop of 3). -/
def catalogABC : List Song :=
  [sampleSong "A" 120 5, sampleSong "B" 120 5, sampleSong "C" 120 2]

/-- Catalog with bpm sequence [80, 85, 70, 95]. -/
def slowCatalog1 : List Song :=
  [sampleSong "s1" 80 3, sampleSong "s2" 85 3,
   sampleSong "s3" 70 3, sampleSong "s4" 95 3]

/-- Catalog with bpm sequence [80, 85, 70, 60, 50]. -/
def slowCatalog2 : List Song :=
  [sampleSong "t1" 80 3, sampleSong "t2" 85 3, sampleSong "t3" 70 3,
   sampleSong "t4" 60 3, sampleSong "t5" 50 3]

/-- Catalog with bpm sequence [80, 95, 80, 85]. -/
def slowCatalog3 : List Song :=
  [sampleSong "u1" 80 3, sampleSong "u2" 95 3,
   sampleSong "u3" 80 3, sampleSong "u4" 85 3]

/-- The circle-of-fifths circular distance between two keys. -/
def circleDistance (k1 k2 : MusicalKey) : Int :=
  min |KEY_POSITIONS k1 - KEY_POSITIONS k2|
    (12 - |KEY_POSITIONS k1 - KEY_POSITIONS k2|)

/-! ## The claimed properties -/

/-- C2: for all integer inputs, `calculateTimeStatus` returns
`targetSeconds = (targetMinutes - changeoverMinutes) * 60`,
`difference = totalSeconds - targetSeconds`, and classifies the status with
fixed tolerance 120 by the precedence over / close / good / under; at the
boundaries, difference 0 and -120 are good and 120 is close; concretely
(3600,60,5) is over with difference 300, (3300,60,5) good, (3420,60,5)
close, (3180,60,5) good, (3000,60,5) under. -/
theorem C2_time_status_classification :
    (∀ (totalSeconds targetMinutes changeoverMinutes : Int),
      (calculateTimeStatus totalSeconds targetMinutes changeoverMinutes).targetSeconds
          = (targetMinutes - changeoverMinutes) * 60
      ∧ (calculateTimeStatus totalSeconds targetMinutes changeoverMinutes).difference
          = totalSeconds - (targetMinutes - changeoverMinutes) * 60
      ∧ ((calculateTimeStatus totalSeconds targetMinutes changeoverMinutes).status
            = .over
          ↔ 120 < totalSeconds - (targetMinutes - changeoverMinutes) * 60)
      ∧ ((calculateTimeStatus totalSeconds targetMinutes changeoverMinutes).status
            = .close
          ↔ 0 < totalSeconds - (targetMinutes - changeoverMinutes) * 60
            ∧ totalSeconds - (targetMinutes - changeoverMinutes) * 60 ≤ 120)
      ∧ ((calculateTimeStatus totalSeconds targetMinutes changeoverMinutes).status
            = .good
          ↔ -120 ≤ totalSeconds - (targetMinutes - changeoverMinutes) * 60
            ∧ totalSeconds - (targetMinutes - changeoverMinutes) * 60 ≤ 0)
      ∧ ((calculateTimeStatus totalSeconds targetMinutes changeoverMinutes).status
            = .under
          ↔ totalSeconds - (targetMinutes - changeoverMinutes) * 60 < -120))
    ∧ calculateTimeStatus 3600 60 5 = ⟨.over, 3300, 300⟩
    ∧ calculateTimeStatus 3300 60 5 = ⟨.good, 3300, 0⟩
    ∧ calculateTimeStatus 3420 60 5 = ⟨.close, 3300, 120⟩
    ∧ calculateTimeStatus 3180 60 5 = ⟨.good, 3300, -120⟩
    ∧ calculateTimeStatus 3000 60 5 = ⟨.under, 3300, -300⟩ := by
  refine ⟨?_, by decide, by decide, by decide, by decide, by decide⟩
  intro t tm cm
  simp only [calculateTimeStatus]
  split_ifs with h1 h2 h3
  · exact ⟨trivial, trivial, iff_of_true rfl (by omega),
      iff_of_false (by decide) (by omega),
      iff_of_false (by decide) (by omega),
      iff_of_false (by decide) (by omega)⟩
  · exact ⟨trivial, trivial, iff_of_false (by decide) (by omega),
      iff_of_true rfl (by omega),
      iff_of_false (by decide) (by omega),
      iff_of_false (by decide) (by omega)⟩
  · exact ⟨trivial, trivial, iff_of_false (by decide) (by omega),
      iff_of_false (by decide) (by omega),
      iff_of_true rfl (by omega),
      iff_of_false (by decide) (by omega)⟩
  · exact ⟨trivial, trivial, iff_of_false (by decide) (by omega),
      iff_of_false (by decide) (by omega),
      iff_of_false (by decide) (by omega),
      iff_of_true rfl (by omega)⟩

/-- C3: for every non-identical pair of (key, mode) inputs,
`areKeysClashing` returns true iff the circular distance on the circle of
fifths exceeds 4, the modes never affecting the distance computation; in
particular C-G (distance 1) and C-D (distance 2) do not clash while C-B
(distance 5) and C-F# (distance 6) do. -/
theorem C3_clash_iff_distance_gt_4 :
    (∀ (key1 : MusicalKey) (mode1 : KeyMode) (key2 : MusicalKey) (mode2 : KeyMode),
      ¬(key1 = key2 ∧ mode1 = mode2) →
      (areKeysClashing key1 mode1 key2 mode2 = true
        ↔ 4 < circleDistance key1 key2)
      ∧ ∀ (mode3 mode4 : KeyMode), ¬(key1 = key2 ∧ mode3 = mode4) →
          areKeysClashing key1 mode3 key2 mode4
            = areKeysClashing key1 mode1 key2 mode2)
    ∧ circleDistance .C .G = 1 ∧ (∀ m m', areKeysClashing .C m .G m' = false)
    ∧ circleDistance .C .D = 2 ∧ (∀ m m', areKeysClashing .C m .D m' = false)
    ∧ circleDistance .C .B = 5 ∧ (∀ m m', areKeysClashing .C m .B m' = true)
    ∧ circleDistance .C .Fs = 6 ∧ (∀ m m', areKeysClashing .C m .Fs m' = true)
    := by
  constructor
  · decide
  · decide

/-- C3 witness: the key-clash criterion instantiated at C Major vs B Minor. -/
theorem C3_clash_iff_distance_gt_4_witness :
    areKeysClashing .C .Major .B .Minor = true ↔ 4 < circleDistance .C .B :=
  (C3_clash_iff_distance_gt_4.1 .C .Major .B .Minor (by decide)).1

/-- C7: `calculateTimeStatus` applies no floor at zero to `targetSeconds`
and never fails: every input, including a changeover exceeding the target
(negative `targetSeconds`) and negative `totalSeconds`, yields the raw
formula values unchanged. -/
theorem C7_no_clamping :
    (∀ (totalSeconds targetMinutes changeoverMinutes : Int),
      (calculateTimeStatus totalSeconds targetMinutes changeoverMinutes).targetSeconds
          = (targetMinutes - changeoverMinutes) * 60
      ∧ (calculateTimeStatus totalSeconds targetMinutes changeoverMinutes).difference
          = totalSeconds
            - (calculateTimeStatus totalSeconds targetMinutes changeoverMinutes).targetSeconds)
    ∧ calculateTimeStatus (-100) 1 5 = ⟨.over, -240, 140⟩
    ∧ calculateTimeStatus 0 5 10 = ⟨.over, -300, 300⟩
    ∧ calculateTimeStatus (-500) 1 5 = ⟨.under, -240, -260⟩ :=
  ⟨fun _ _ _ => ⟨rfl, rfl⟩, by decide, by decide, by decide⟩

/-- C8: `areKeysClashing` is symmetric in its two (key, mode) arguments. -/
theorem C8_clash_symmetric :
    ∀ (a : MusicalKey) (ma : KeyMode) (b : MusicalKey) (mb : KeyMode),
      areKeysClashing a ma b mb = areKeysClashing b mb a ma := by
  decide

/-- C9: identical (key, mode) pairs never clash. -/
theorem C9_clash_irreflexive :
    ∀ (k : MusicalKey) (m : KeyMode), areKeysClashing k m k m = false := by
  decide

/-- C5: the warning list is two independent passes — all key-clash and
energy-drop warnings first, in ascending position order with key-clash
before energy-drop at the same pair, then all slow-sequence warnings
appended after them, never interleaved. -/
theorem C5_two_pass_output_order :
    ∀ (songIds : List String) (songs : List Song),
      calculateFlowWarnings songIds songs
        = pairWarningList (resolveSetlist songIds songs) 1
          ++ slowWarningList (resolveSetlist songIds songs) 0 0
      ∧ List.Pairwise warnBefore (pairWarningList (resolveSetlist songIds songs) 1)
      ∧ (∀ w ∈ pairWarningList (resolveSetlist songIds songs) 1,
          w.type = .keyClash ∨ w.type = .energyDrop)
      ∧ (∀ w ∈ slowWarningList (resolveSetlist songIds songs) 0 0,
          w.type = .slowSequence) :=
  fun songIds songs =>
    ⟨calculateFlowWarnings_decomp songIds songs,
     pairWarningList_pairwise _ 1,
     fun w hw => pairWarningList_mem_type _ 1 w hw,
     fun w hw => (slowWarningList_mem_shape _ 0 0 w hw).1⟩

/-- C5 witness: the decomposition instantiated on the catalog whose bpm
sequence is [80, 85, 70, 95], where the slow pass emits at position 2. -/
theorem C5_two_pass_output_order_witness :
    (⟨.slowSequence, 2, slowSequenceMessage⟩ : FlowWarning).type
      = .slowSequence :=
  (C5_two_pass_output_order ["s1", "s2", "s3", "s4"] slowCatalog1).2.2.2
    ⟨.slowSequence, 2, slowSequenceMessage⟩ (by decide)

/-- C4: unresolved ids are dropped silently — filtering them out of the id
list first changes nothing — and warning positions refer to the resolved
sequence: with catalog {A, B, C} and ordering [A, X, B, C] (X missing),
the resolved sequence is [A, B, C] and the B → C energy-drop warning is
reported at position 2, not 3. -/
theorem C4_stale_ids_dropped_silently :
    (∀ (songIds : List String) (songs : List Song),
      resolveSetlist
          (songIds.filter (fun id => (songs.find? (fun s => s.id == id)).isSome))
          songs
        = resolveSetlist songIds songs
      ∧ calculateFlowWarnings
          (songIds.filter (fun id => (songs.find? (fun s => s.id == id)).isSome))
          songs
        = calculateFlowWarnings songIds songs)
    ∧ resolveSetlist ["A", "X", "B", "C"] catalogABC
        = [sampleSong "A" 120 5, sampleSong "B" 120 5, sampleSong "C" 120 2]
    ∧ calculateFlowWarnings ["A", "X", "B", "C"] catalogABC
        = [⟨.energyDrop, 2, "Energy drop: 5 → 2"⟩] := by
  refine ⟨?_, by decide, by decide⟩
  intro songIds songs
  have hres : resolveSetlist
      (songIds.filter (fun id => (songs.find? (fun s => s.id == id)).isSome))
      songs = resolveSetlist songIds songs :=
    filterMap_filter_isSome
      (fun (id : String) => songs.find? (fun (s : Song) => s.id == id)) songIds
  refine ⟨hres, ?_⟩
  simp only [calculateFlowWarnings]
  rw [hres]

/-- C10 (implicit): every warning's songIndex `i` satisfies
`1 ≤ i ≤ n - 1` for the resolved length `n` (slow-sequence warnings even
`2 ≤ i`), so resolved sequences of length 0 or 1 yield no warnings. -/
theorem C10_warning_index_bounds :
    ∀ (songIds : List String) (songs : List Song),
      (∀ w ∈ calculateFlowWarnings songIds songs,
        1 ≤ w.songIndex
        ∧ w.songIndex + 1 ≤ (resolveSetlist songIds songs).length
        ∧ (w.type = .slowSequence → 2 ≤ w.songIndex))
      ∧ ((resolveSetlist songIds songs).length ≤ 1
          → calculateFlowWarnings songIds songs = []) := by
  intro songIds songs
  constructor
  · intro w hw
    rw [calculateFlowWarnings_decomp] at hw
    rcases List.mem_append.mp hw with hp | hs
    · have hb := pairWarningList_mem_bounds _ 1 w hp
      refine ⟨by omega, by omega, fun hsl => ?_⟩
      rcases pairWarningList_mem_type _ 1 w hp with h | h <;>
        rw [hsl] at h <;> exact absurd h (by decide)
    · obtain ⟨_, _, h1, h2, h3⟩ := slowWarningList_mem_shape _ 0 0 w hs
      exact ⟨by omega, by omega, fun _ => by omega⟩
  · intro hlen
    apply List.eq_nil_iff_forall_not_mem.mpr
    intro w hw
    rw [calculateFlowWarnings_decomp] at hw
    rcases List.mem_append.mp hw with hp | hs
    · have hb := pairWarningList_mem_bounds _ 1 w hp
      omega
    · obtain ⟨_, _, h1, h2, h3⟩ := slowWarningList_mem_shape _ 0 0 w hs
      omega

/-- C10 witness: the bounds instantiated at the energy-drop warning of
catalog {A, B, C} under the ordering [A, X, B, C]. -/
theorem C10_warning_index_bounds_witness :
    1 ≤ (⟨.energyDrop, 2, "Energy drop: 5 → 2"⟩ : FlowWarning).songIndex
    ∧ (⟨.energyDrop, 2, "Energy drop: 5 → 2"⟩ : FlowWarning).songIndex + 1
        ≤ (resolveSetlist ["A", "X", "B", "C"] catalogABC).length
    ∧ ((⟨.energyDrop, 2, "Energy drop: 5 → 2"⟩ : FlowWarning).type
          = .slowSequence
        → 2 ≤ (⟨.energyDrop, 2, "Energy drop: 5 → 2"⟩ : FlowWarning).songIndex) :=
  (C10_warning_index_bounds ["A", "X", "B", "C"] catalogABC).1
    ⟨.energyDrop, 2, "Energy drop: 5 → 2"⟩ (by decide)

/-- C1: the slow-sequence pass emits exactly one warning per maximal run of
3+ consecutive slow songs (bpm < 90), positioned at the index in the
resolved sequence where the run first reaches length 3, and nothing else
(runs of length at most 2 emit nothing; a song with bpm >= 90 resets the
run): the slow-sequence warning positions are exactly the
`thirdOfSlowRun` positions. Concretely, bpm sequences [80,85,70,95] and
[80,85,70,60,50] each produce exactly one warning, at position 2, and
[80,95,80,85] produces none. -/
theorem C1_slow_sequence_once_per_run :
    (∀ (songIds : List String) (songs : List Song),
      ((calculateFlowWarnings songIds songs).filter
          (fun w => decide (w.type = .slowSequence))).map (fun w => w.songIndex)
        = (List.range (resolveSetlist songIds songs).length).filter
            (fun j => decide (thirdOfSlowRun (resolveSetlist songIds songs) j)))
    ∧ (calculateFlowWarnings ["s1", "s2", "s3", "s4"] slowCatalog1).filter
        (fun w => decide (w.type = .slowSequence))
        = [⟨.slowSequence, 2, slowSequenceMessage⟩]
    ∧ (calculateFlowWarnings ["t1", "t2", "t3", "t4", "t5"] slowCatalog2).filter
        (fun w => decide (w.type = .slowSequence))
        = [⟨.slowSequence, 2, slowSequenceMessage⟩]
    ∧ (calculateFlowWarnings ["u1", "u2", "u3", "u4"] slowCatalog3).filter
        (fun w => decide (w.type = .slowSequence)) = [] := by
  refine ⟨?_, by decide, by decide, by decide⟩
  intro songIds songs
  rw [calculateFlowWarnings_decomp, List.filter_append]
  have h1 : (pairWarningList (resolveSetlist songIds songs) 1).filter
      (fun w => decide (w.type = .slowSequence)) = [] := by
    rw [List.filter_eq_nil_iff]
    intro w hw
    rcases pairWarningList_mem_type _ 1 w hw with h | h <;> simp [h]
  have h2 : (slowWarningList (resolveSetlist songIds songs) 0 0).filter
      (fun w => decide (w.type = .slowSequence))
      = slowWarningList (resolveSetlist songIds songs) 0 0 := by
    rw [List.filter_eq_self]
    intro w hw
    simp [(slowWarningList_mem_shape _ 0 0 w hw).1]
  rw [h1, h2, List.nil_append]
  have hmain := slowWarningList_positions (resolveSetlist songIds songs)
    (resolveSetlist songIds songs).length 0 0 (by omega) (by omega)
    (fun d hd => absurd hd (Nat.not_lt_zero d))
    (fun h => absurd h (lt_irrefl 0))
  rw [List.drop_zero] at hmain
  rw [hmain, Nat.sub_zero, ← List.range_eq_range']

/-- C6: an energy-drop warning is emitted at position `i` of the resolved
sequence iff the adjacent pair at `i-1`, `i` loses strictly more than 2
energy levels; a drop of at most 2 or any increase never warns. -/
theorem C6_energy_drop_iff_gt_2 :
    ∀ (songIds : List String) (songs : List Song) (i : Nat)
      (h1 : 1 ≤ i) (h2 : i < (resolveSetlist songIds songs).length),
      (∃ w ∈ calculateFlowWarnings songIds songs,
        w.type = .energyDrop ∧ w.songIndex = i)
      ↔ 2 < ((resolveSetlist songIds songs).get ⟨i - 1, by omega⟩).energyLevel
          - ((resolveSetlist songIds songs).get ⟨i, h2⟩).energyLevel := by
  intro songIds songs i hi1 hi2
  constructor
  · rintro ⟨w, hw, ht, hidx⟩
    rw [calculateFlowWarnings_decomp] at hw
    rcases List.mem_append.mp hw with hp | hs
    · rcases (pairWarningList_energyDrop_iff
        (resolveSetlist songIds songs) 1 i).mp ⟨w, hp, ht, hidx⟩
        with ⟨s1, s2, hbi, hg1, hg2, hcond⟩
      rw [show i - 1 + 1 = i by omega] at hg2
      rw [List.getElem?_eq_getElem (show i - 1 < _ by omega)] at hg1
      rw [List.getElem?_eq_getElem hi2] at hg2
      injection hg1 with hg1
      injection hg2 with hg2
      rw [List.get_eq_getElem, List.get_eq_getElem, hg1, hg2]
      exact hcond
    · have hts := (slowWarningList_mem_shape _ 0 0 w hs).1
      rw [hts] at ht
      exact absurd ht (by decide)
  · intro hcond
    have hg1 : (resolveSetlist songIds songs)[i - 1]?
        = some ((resolveSetlist songIds songs).get ⟨i - 1, by omega⟩) := by
      rw [List.getElem?_eq_getElem (show i - 1 < _ by omega), List.get_eq_getElem]
    have hg2 : (resolveSetlist songIds songs)[i - 1 + 1]?
        = some ((resolveSetlist songIds songs).get ⟨i, hi2⟩) := by
      rw [show i - 1 + 1 = i by omega,
        List.getElem?_eq_getElem hi2, List.get_eq_getElem]
    rcases (pairWarningList_energyDrop_iff
        (resolveSetlist songIds songs) 1 i).mpr
        ⟨_, _, hi1, hg1, hg2, hcond⟩
      with ⟨w, hw, ht, hidx⟩
    refine ⟨w, ?_, ht, hidx⟩
    rw [calculateFlowWarnings_decomp]
    exact List.mem_append_left _ hw

/-- C6 witness: the criterion instantiated at position 2 of catalog
{A, B, C} under the ordering [A, B, C] (energies 5, 5, 2). -/
theorem C6_energy_drop_iff_gt_2_witness :
    (∃ w ∈ calculateFlowWarnings ["A", "B", "C"] catalogABC,
      w.type = .energyDrop ∧ w.songIndex = 2)
    ↔ 2 < ((resolveSetlist ["A", "B", "C"] catalogABC).get
            ⟨1, by decide⟩).energyLevel
        - ((resolveSetlist ["A", "B", "C"] catalogABC).get
            ⟨2, by decide⟩).energyLevel :=
  C6_energy_drop_iff_gt_2 ["A", "B", "C"] catalogABC 2 (by decide) (by decide)
